import Mathlib

set_option autoImplicit false
set_option maxHeartbeats 1000000

/-!
Verification of the RPC core of `ykman/rpc/__init__.py`.

The file shallowly embeds the module's two cooperating loops
(`_handle_incoming`, the Receiver Loop, and `process`, the Dispatch
Pipeline) as an interleaving small-step transition system, and the node
classes (`DevicesNode`, `ReadersNode`, `DeviceNode`, `ConnectionNode`) as
pure functions over explicit state, with external collaborators
(`scan_devices`, `list_all_devices`, `list_devices`, `connect_to_device`,
`read_info`, `get_name`) supplied as parameters.
-/

/-- Command payload of an action request: the fields `process` pops from the
request dict (`action`, `target` defaulting to `[]`, `params` defaulting to
`{}`) before calling the handler. -/
structure Cmd where
  action : String
  target : List String
  params : List (String × String)
deriving DecidableEq

/-- A truthy inbound message, recording which of the keys `"signal"` and
`"action"` it carries.  `_handle_incoming` tests `"signal" in request` first,
then `"action" in request`; a message carrying neither is the protocol-error
case.  A falsy message (empty dict / `None`) is represented at the stream
level as `none` (see `St.stream`). -/
structure Msg where
  signal : Option String
  act : Option Cmd
deriving DecidableEq

/-- Outbound frame written by `process`'s `send`: `success` for
`{"result": "success", **data}` (the handler's returned data abstracted as an
opaque payload), `error` for `{"result": "error", "message": str(e)}`. -/
inductive Out
  | success (data : String)
  | error (msg : String)
deriving DecidableEq

/-- An item of the capacity-one hand-off queue `cmd_queue`: either a command
request or the `None` sentinel pushed at end-of-stream. -/
inductive QItem
  | cmd (c : Cmd)
  | sentinel
deriving DecidableEq

/-- Control state of the Receiver Loop `_handle_incoming`: `running` inside
the `while True` loop, `finishing` after `break` (about to put the sentinel),
`rdone` after the final `cmd_queue.put(None)`. -/
inductive RState
  | running
  | finishing
  | rdone
deriving DecidableEq

/-- Control state of the Dispatch Pipeline loop in `process`: `idle` blocked
on `cmd_queue.get()`, `exec c` between popping command `c` and finishing its
try/except block, `ddone` after breaking on the sentinel. -/
inductive DState
  | idle
  | exec (c : Cmd)
  | ddone
deriving DecidableEq

/-- Joint state of the two loops.  `stream` is the remaining inbound
transport messages (`none` = falsy message; an exhausted list = transport
closed, `recv` returns nothing).  `event` is the shared `threading.Event`
Cancellation Flag.  `queue` is the content of the capacity-one `cmd_queue`.
`pending` is the queue's unfinished-task count (`put` increments it,
`task_done` decrements it; `join` blocks while it is positive).  `out` is the
sequence of frames emitted via `send`, oldest first. -/
structure St where
  stream : List (Option Msg)
  rstate : RState
  event : Bool
  queue : Option QItem
  pending : Nat
  dstate : DState
  out : List Out
deriving DecidableEq

/-- Initial state of `process`: fresh cleared `Event()`, empty `Queue(1)`,
receiver and dispatcher at the top of their loops, nothing sent. -/
def init (stream : List (Option Msg)) : St :=
  { stream := stream
    rstate := .running
    event := false
    queue := none
    pending := 0
    dstate := .idle
    out := [] }

/-- The registered handler, abstracted as a function from the command to
either the data dict it returns (success) or the message of the exception it
raises (failure).  In the source this is `RootNode`'s dispatch over the node
tree; every claim about `process` is uniform in it. -/
def Handler : Type := Cmd → Except String String

/-- Response emitted by the Dispatch Pipeline for one handler outcome:
`success(data)` when the handler returns, `error(str(e))` when it raises. -/
def respOf (r : Except String String) : Out :=
  match r with
  | .ok d => .success d
  | .error m => .error m

/-- Transition labels, naming which statement of which loop fires. -/
inductive Lab
  | rSig (name : String)
  | rAct (c : Cmd)
  | rBad
  | rEos
  | rFin
  | dPop (c : Cmd)
  | dEx (c : Cmd)
  | dStop
deriving DecidableEq

/-- One interleaved step of the two loops of `process`.

Receiver steps (from `_handle_incoming`):
* `rSig`: a message with a `"signal"` key; `"cancel"` sets the Event, any
  other name is only logged.
* `rAct`: a message with an `"action"` key (and no `"signal"`);
  `cmd_queue.join()` requires the unfinished-task count to be zero, then
  `event.clear()` and `cmd_queue.put(request)` run; no other thread's step
  is enabled while `pending = 0` holds, so the three statements are one
  atomic transition.
* `rBad`: a message with neither key; `error(Exception("Unsupported message
  type"))` sends an error frame and the loop continues.
* `rEos`: a falsy message or a closed transport; the loop breaks and
  `event.set()` runs.
* `rFin`: the final `cmd_queue.put(None)`, which blocks until the queue slot
  is free, then the receiver thread ends.

Dispatcher steps (from the `while True` loop of `process`):
* `dPop`: `cmd_queue.get()` returns a command.
* `dEx`: the try/except around the handler call finishes, emitting exactly
  one frame via `success` or `error`, then `cmd_queue.task_done()` runs.
* `dStop`: `cmd_queue.get()` returns the sentinel and the loop breaks. -/
inductive Step (h : Handler) : St → Lab → St → Prop
  | rSig (s : St) (m : Msg) (rest : List (Option Msg)) (name : String)
      (hr : s.rstate = .running) (hs : s.stream = some m :: rest)
      (hn : m.signal = some name) :
      Step h s (.rSig name)
        { s with stream := rest,
                 event := if name = "cancel" then true else s.event }
  | rAct (s : St) (m : Msg) (rest : List (Option Msg)) (c : Cmd)
      (hr : s.rstate = .running) (hs : s.stream = some m :: rest)
      (hn : m.signal = none) (ha : m.act = some c)
      (hj : s.pending = 0) :
      Step h s (.rAct c)
        { s with stream := rest,
                 event := false,
                 queue := some (.cmd c),
                 pending := s.pending + 1 }
  | rBad (s : St) (m : Msg) (rest : List (Option Msg))
      (hr : s.rstate = .running) (hs : s.stream = some m :: rest)
      (hn : m.signal = none) (ha : m.act = none) :
      Step h s .rBad
        { s with stream := rest,
                 out := s.out ++ [.error "Unsupported message type"] }
  | rEosNone (s : St) (rest : List (Option Msg))
      (hr : s.rstate = .running) (hs : s.stream = none :: rest) :
      Step h s .rEos
        { s with stream := rest, rstate := .finishing, event := true }
  | rEosEnd (s : St)
      (hr : s.rstate = .running) (hs : s.stream = []) :
      Step h s .rEos
        { s with rstate := .finishing, event := true }
  | rFin (s : St)
      (hr : s.rstate = .finishing) (hq : s.queue = none) :
      Step h s .rFin
        { s with queue := some .sentinel,
                 pending := s.pending + 1,
                 rstate := .rdone }
  | dPop (s : St) (c : Cmd)
      (hd : s.dstate = .idle) (hq : s.queue = some (.cmd c)) :
      Step h s (.dPop c)
        { s with queue := none, dstate := .exec c }
  | dEx (s : St) (c : Cmd)
      (hd : s.dstate = .exec c) :
      Step h s (.dEx c)
        { s with dstate := .idle,
                 out := s.out ++ [respOf (h c)],
                 pending := s.pending - 1 }
  | dStop (s : St)
      (hd : s.dstate = .idle) (hq : s.queue = some .sentinel) :
      Step h s .dStop
        { s with queue := none, dstate := .ddone }

/-- A step under some label. -/
def StepAny (h : Handler) (s s' : St) : Prop :=
  ∃ l, Step h s l s'

/-- Reachability between joint states. -/
def Reach (h : Handler) : St → St → Prop :=
  Relation.ReflTransGen (StepAny h)

/-- Number of items currently in the hand-off queue (0 or 1). -/
def qCnt (s : St) : Nat :=
  match s.queue with
  | some _ => 1
  | none => 0

/-- Number of commands (not sentinels) currently in the hand-off queue. -/
def qCmdCnt (s : St) : Nat :=
  match s.queue with
  | some (.cmd _) => 1
  | _ => 0

/-- Whether the dispatcher is currently executing a command. -/
def execCnt (s : St) : Nat :=
  match s.dstate with
  | .exec _ => 1
  | _ => 0

/-- Whether the dispatcher has terminated. -/
def ddoneCnt (s : St) : Nat :=
  match s.dstate with
  | .ddone => 1
  | _ => 0

/-- The joint invariant of `process`: the unfinished-task count balances the
queue content and the dispatcher's progress; the sentinel is only ever in
the queue once the receiver has terminated; the dispatcher terminates only
after the receiver; at most one command is in flight (queued or executing);
a terminated receiver leaves either the sentinel queued or the dispatcher
terminated; a terminated dispatcher leaves the queue empty; and once the
receiver has left its loop the Cancellation Flag is set. -/
def PipeInv (s : St) : Prop :=
  s.pending = qCnt s + execCnt s + ddoneCnt s
  ∧ (s.queue = some .sentinel → s.rstate = .rdone)
  ∧ (s.dstate = .ddone → s.rstate = .rdone)
  ∧ qCmdCnt s + execCnt s ≤ 1
  ∧ (s.rstate = .rdone → s.queue = some .sentinel ∨ s.dstate = .ddone)
  ∧ (s.dstate = .ddone → s.queue = none)
  ∧ (s.rstate ≠ .running → s.event = true)

theorem pipeInv_init (stream : List (Option Msg)) : PipeInv (init stream) := by
  simp [PipeInv, init, qCnt, qCmdCnt, execCnt, ddoneCnt]

theorem pipeInv_step {h : Handler} {s : St} {l : Lab} {s' : St}
    (hi : PipeInv s) (hs : Step h s l s') : PipeInv s' := by
  obtain ⟨stm, rs, ev, qu, pd, ds, ou⟩ := s
  obtain ⟨h1, h2, h3, h4, h5, h6, h7⟩ := hi
  cases hs with
  | rSig m rest name hr hstr hn =>
    cases hr
    exact ⟨h1, h2, h3, h4, h5, h6, fun hcon => absurd rfl hcon⟩
  | rAct m rest c hr hstr hn ha hj =>
    cases hr
    cases hj
    cases hqv : qu with
    | some q =>
      rw [hqv] at h1
      simp only [qCnt, execCnt, ddoneCnt] at h1
      omega
    | none =>
      rw [hqv] at h1
      cases hdv : ds with
      | exec c' =>
        rw [hdv] at h1
        simp only [qCnt, execCnt, ddoneCnt] at h1
        omega
      | ddone =>
        rw [hdv] at h1
        simp only [qCnt, execCnt, ddoneCnt] at h1
        omega
      | idle =>
        cases hqv; cases hdv
        exact ⟨rfl, by simp, by simp, by simp [qCmdCnt, execCnt], by simp,
          by simp, fun hcon => absurd rfl hcon⟩
  | rBad m rest hr hstr hn ha =>
    cases hr
    exact ⟨h1, h2, h3, h4, h5, h6, fun hcon => absurd rfl hcon⟩
  | rEosNone rest hr hstr =>
    cases hr
    exact ⟨h1, fun hq => RState.noConfusion (h2 hq),
      fun hd => RState.noConfusion (h3 hd), h4,
      fun hc => RState.noConfusion hc, h6, fun _ => rfl⟩
  | rEosEnd hr hstr =>
    cases hr
    exact ⟨h1, fun hq => RState.noConfusion (h2 hq),
      fun hd => RState.noConfusion (h3 hd), h4,
      fun hc => RState.noConfusion hc, h6, fun _ => rfl⟩
  | rFin hr hq =>
    cases hr
    cases hq
    refine ⟨?_, fun _ => rfl, fun _ => rfl, ?_, fun _ => Or.inl rfl,
      fun hd => RState.noConfusion (h3 hd),
      fun _ => h7 (fun hh => RState.noConfusion hh)⟩
    · simp only [qCnt, execCnt, ddoneCnt] at h1 ⊢
      omega
    · cases ds <;> simp [qCmdCnt, execCnt]
  | dPop c hd hq =>
    cases hd
    cases hq
    simp only [qCnt, execCnt, ddoneCnt] at h1
    refine ⟨?_, by simp, by simp, ?_, ?_, by simp, h7⟩
    · simp only [qCnt, execCnt, ddoneCnt]
      omega
    · simp [qCmdCnt, execCnt]
    · intro hrd
      rcases h5 hrd with x | x <;> simp at x
  | dEx c hd =>
    cases hd
    cases hqv : qu with
    | none =>
      cases hqv
      simp only [qCnt, execCnt, ddoneCnt] at h1
      refine ⟨?_, h2, by simp, ?_, ?_, by simp, h7⟩
      · simp only [qCnt, execCnt, ddoneCnt]
        omega
      · simp [qCmdCnt, execCnt]
      · intro hrd
        rcases h5 hrd with x | x <;> simp at x
    | some q =>
      cases q with
      | cmd c' =>
        rw [hqv] at h4
        simp [qCmdCnt, execCnt] at h4
      | sentinel =>
        cases hqv
        simp only [qCnt, execCnt, ddoneCnt] at h1
        refine ⟨?_, h2, by simp, ?_, fun _ => Or.inl rfl, by simp, h7⟩
        · simp only [qCnt, execCnt, ddoneCnt]
          omega
        · simp [qCmdCnt, execCnt]
  | dStop hd hq =>
    cases hd
    cases hq
    simp only [qCnt, execCnt, ddoneCnt] at h1
    refine ⟨?_, by simp, fun _ => h2 rfl, ?_, fun _ => Or.inr rfl,
      fun _ => rfl, h7⟩
    · simp only [qCnt, execCnt, ddoneCnt]
      omega
    · simp [qCmdCnt, execCnt]

theorem pipeInv_reach {h : Handler} {stream : List (Option Msg)} {s : St}
    (hr : Reach h (init stream) s) : PipeInv s := by
  induction hr with
  | refl => exact pipeInv_init stream
  | tail _ hstep ih => exact pipeInv_step ih hstep.choose_spec

/-- Weight of the receiver's control state in the termination measure. -/
def rW : RState → Nat
  | .running => 6
  | .finishing => 5
  | .rdone => 0

/-- Weight of the dispatcher's control state in the termination measure. -/
def dW : DState → Nat
  | .idle => 0
  | .exec _ => 2
  | .ddone => 0

/-- Termination measure of the joint system: strictly decreases on every
step, so `process` performs only finitely many steps on a finite inbound
stream. -/
def pipeMeasure (s : St) : Nat :=
  5 * s.stream.length + rW s.rstate + 3 * qCnt s + s.pending + dW s.dstate

theorem pipeMeasure_step {h : Handler} {s : St} {l : Lab} {s' : St}
    (hs : Step h s l s') : pipeMeasure s' < pipeMeasure s := by
  obtain ⟨stm, rs, ev, qu, pd, ds, ou⟩ := s
  cases hs with
  | rSig m rest name hr hstr hn =>
    cases hr
    simp only at hstr
    subst hstr
    simp [pipeMeasure, qCnt, rW, dW]
  | rAct m rest c hr hstr hn ha hj =>
    cases hr
    simp only at hstr hj
    subst hstr
    subst hj
    simp only [pipeMeasure, qCnt, rW, dW, List.length_cons]
    omega
  | rBad m rest hr hstr hn ha =>
    cases hr
    simp only at hstr
    subst hstr
    simp [pipeMeasure, qCnt, rW, dW]
  | rEosNone rest hr hstr =>
    cases hr
    simp only at hstr
    subst hstr
    simp only [pipeMeasure, qCnt, rW, dW, List.length_cons]
    omega
  | rEosEnd hr hstr =>
    cases hr
    simp only [pipeMeasure, qCnt, rW, dW]
    omega
  | rFin hr hq =>
    cases hr
    simp only at hq
    subst hq
    simp only [pipeMeasure, qCnt, rW, dW]
    omega
  | dPop c hd hq =>
    cases hd
    simp only at hq
    subst hq
    simp only [pipeMeasure, qCnt, rW, dW]
    omega
  | dEx c hd =>
    cases hd
    simp only [pipeMeasure, qCnt, rW, dW]
    omega
  | dStop hd hq =>
    cases hd
    simp only at hq
    subst hq
    simp only [pipeMeasure, qCnt, rW, dW]
    omega

theorem no_infinite_run (h : Handler) (f : Nat → St)
    (hf : ∀ n, StepAny h (f n) (f (n + 1))) : False := by
  have hdec : ∀ n, pipeMeasure (f (n + 1)) < pipeMeasure (f n) :=
    fun n => pipeMeasure_step (hf n).choose_spec
  have hle : ∀ n, pipeMeasure (f n) + n ≤ pipeMeasure (f 0) := by
    intro n
    induction n with
    | zero => simp
    | succ k ih =>
      have := hdec k
      omega
  have := hle (pipeMeasure (f 0) + 1)
  omega

/-- Progress: a state satisfying the invariant is either fully terminated
(receiver done, dispatcher done, queue drained) or can take a step. -/
theorem pipe_progress (h : Handler) (s : St) (hi : PipeInv s) :
    (s.rstate = .rdone ∧ s.dstate = .ddone ∧ s.queue = none)
    ∨ ∃ l s', Step h s l s' := by
  obtain ⟨stm, rs, ev, qu, pd, ds, ou⟩ := s
  obtain ⟨h1, h2, h3, h4, h5, h6, h7⟩ := hi
  cases rs with
  | running =>
    right
    cases stm with
    | nil => exact ⟨_, _, Step.rEosEnd _ rfl rfl⟩
    | cons hd0 rest =>
      cases hd0 with
      | none => exact ⟨_, _, Step.rEosNone _ rest rfl rfl⟩
      | some m =>
        cases hm : m.signal with
        | some name => exact ⟨_, _, Step.rSig _ m rest name rfl rfl hm⟩
        | none =>
          cases hma : m.act with
          | none => exact ⟨_, _, Step.rBad _ m rest rfl rfl hm hma⟩
          | some c =>
            by_cases hpd : pd = 0
            · exact ⟨_, _, Step.rAct _ m rest c rfl rfl hm hma hpd⟩
            · cases hds : ds with
              | exec c' =>
                subst hds
                exact ⟨_, _, Step.dEx _ c' rfl⟩
              | ddone =>
                subst hds
                exact absurd (h3 rfl) (by simp)
              | idle =>
                subst hds
                cases hqu : qu with
                | none =>
                  subst hqu
                  simp [qCnt, execCnt, ddoneCnt] at h1
                  exact absurd h1 hpd
                | some q =>
                  subst hqu
                  cases q with
                  | cmd c' => exact ⟨_, _, Step.dPop _ c' rfl rfl⟩
                  | sentinel => exact absurd (h2 rfl) (by simp)
  | finishing =>
    right
    cases hqu : qu with
    | none =>
      subst hqu
      exact ⟨_, _, Step.rFin _ rfl rfl⟩
    | some q =>
      subst hqu
      cases q with
      | sentinel => exact absurd (h2 rfl) (by simp)
      | cmd c =>
        cases hds : ds with
        | idle =>
          subst hds
          exact ⟨_, _, Step.dPop _ c rfl rfl⟩
        | exec c' =>
          subst hds
          exact ⟨_, _, Step.dEx _ c' rfl⟩
        | ddone =>
          subst hds
          exact absurd (h3 rfl) (by simp)
  | rdone =>
    rcases h5 rfl with hq | hd
    · right
      cases hds : ds with
      | idle =>
        subst hds
        exact ⟨_, _, Step.dStop _ rfl hq⟩
      | exec c' =>
        subst hds
        exact ⟨_, _, Step.dEx _ c' rfl⟩
      | ddone =>
        subst hds
        rw [h6 rfl] at hq
        exact absurd hq (by simp)
    · left
      exact ⟨rfl, hd, h6 hd⟩

/-- A concrete handler that always succeeds, for concrete runs. -/
def hOk : Handler := fun _ => .ok "done"

/-- A concrete command. -/
def cmd0 : Cmd := ⟨"action0", [], []⟩

/-- A concrete action message `{"action": ...}`. -/
def msgAct : Option Msg := some ⟨none, some cmd0⟩

/-- A concrete cancel signal message `{"signal": "cancel"}`. -/
def msgCancel : Option Msg := some ⟨some "cancel", none⟩

/-- A concrete malformed message (truthy, neither signal nor action). -/
def msgBad : Option Msg := some ⟨none, none⟩

/-- State after the receiver enqueues `cmd0` from stream `[msgAct, msgCancel]`. -/
def sAct : St := ⟨[msgCancel], .running, false, some (.cmd cmd0), 1, .idle, []⟩

/-- State after the receiver additionally processes the cancel signal. -/
def sCan : St := ⟨[], .running, true, some (.cmd cmd0), 1, .idle, []⟩

/-- State after the dispatcher then pops `cmd0`. -/
def sPop : St := ⟨[], .running, true, none, 1, .exec cmd0, []⟩

/-- State after the dispatcher finishes executing `cmd0` under `hOk`. -/
def sExec : St := ⟨[], .running, true, none, 0, .idle, [.success "done"]⟩

theorem stepAct : Step hOk (init [msgAct, msgCancel]) (.rAct cmd0) sAct :=
  Step.rAct (init [msgAct, msgCancel]) ⟨none, some cmd0⟩ [msgCancel] cmd0
    rfl rfl rfl rfl rfl

theorem stepCancel : Step hOk sAct (.rSig "cancel") sCan :=
  Step.rSig sAct ⟨some "cancel", none⟩ [] "cancel" rfl rfl rfl

theorem stepPop : Step hOk sCan (.dPop cmd0) sPop :=
  Step.dPop sCan cmd0 rfl rfl

theorem stepExec : Step hOk sPop (.dEx cmd0) sExec :=
  Step.dEx sPop cmd0 rfl

theorem reachCan : Reach hOk (init [msgAct, msgCancel]) sCan :=
  Relation.ReflTransGen.tail
    (Relation.ReflTransGen.tail Relation.ReflTransGen.refl ⟨_, stepAct⟩)
    ⟨_, stepCancel⟩

/-- The final consequence asserted by claim C1 as stated: in every reachable
execution, whenever the dispatcher pops a command (its execution begins), the
Cancellation Flag is clear. -/
def cmdBeginsUncancelled : Prop :=
  ∀ (h : Handler) (stream : List (Option Msg)) (s : St) (c : Cmd) (s' : St),
    Reach h (init stream) s → Step h s (.dPop c) s' → s.event = false

/-- Claim C1, counterexample to the clause "every command begins execution
with the Cancellation Flag cleared": with inbound stream
`[{"action": ...}, {"signal": "cancel"}]`, the receiver can enqueue the
command and then process the cancel signal before the dispatcher pops the
command, so the command begins execution with the flag set. -/
theorem C1_counterexample : ¬ cmdBeginsUncancelled := by
  intro hcl
  have hfalse := hcl hOk [msgAct, msgCancel] sCan cmd0 sPop reachCan stepPop
  simp [sCan] at hfalse

/-- Claim C1 (amended): every enqueue transition of the Receiver Loop occurs
only once the previously submitted command is fully processed (the
unfinished-task count is zero) and leaves the Cancellation Flag cleared with
the command as the sole queue entry; in every reachable state at most one
command is in flight (queued or executing), so no two commands ever execute
concurrently; and the flag becomes set only by a cancel signal or by
end-of-stream, so a command can begin execution with the flag set only when
one of those was processed after its enqueue. -/
theorem C1_serialization :
    (∀ (h : Handler) (s : St) (c : Cmd) (s' : St), Step h s (.rAct c) s' →
      s.pending = 0 ∧ s'.event = false ∧ s'.queue = some (.cmd c)
        ∧ s'.pending = 1)
    ∧ (∀ (h : Handler) (stream : List (Option Msg)) (s : St),
        Reach h (init stream) s → qCmdCnt s + execCnt s ≤ 1)
    ∧ (∀ (h : Handler) (s : St) (l : Lab) (s' : St), Step h s l s' →
        s'.event = true → s.event = true ∨ l = .rSig "cancel" ∨ l = .rEos) := by
  refine ⟨?_, ?_, ?_⟩
  · intro h s c s' hs
    cases hs with
    | rAct m rest hr hstr hn ha hj =>
      rename_i hpd
      exact ⟨hpd, rfl, rfl, by simp [hpd]⟩
  · intro h stream s hr
    exact (pipeInv_reach hr).2.2.2.1
  · intro h s l s' hs hev
    cases hs with
    | rSig m rest name hr hstr hn =>
      by_cases hname : name = "cancel"
      · subst hname
        exact Or.inr (Or.inl rfl)
      · simp only [if_neg hname] at hev
        exact Or.inl hev
    | rAct m rest c hr hstr hn ha hj => simp at hev
    | rBad m rest hr hstr hn ha => exact Or.inl hev
    | rEosNone rest hr hstr => exact Or.inr (Or.inr rfl)
    | rEosEnd hr hstr => exact Or.inr (Or.inr rfl)
    | rFin hr hq => exact Or.inl hev
    | dPop c hd hq => exact Or.inl hev
    | dEx c hd => exact Or.inl hev
    | dStop hd hq => exact Or.inl hev

theorem C1_serialization_witness :
    sAct.event = false ∧ sAct.queue = some (.cmd cmd0)
      ∧ qCmdCnt sCan + execCnt sCan ≤ 1 :=
  ⟨(C1_serialization.1 hOk (init [msgAct, msgCancel]) cmd0 sAct stepAct).2.1,
   (C1_serialization.1 hOk (init [msgAct, msgCancel]) cmd0 sAct stepAct).2.2.1,
   C1_serialization.2.1 hOk [msgAct, msgCancel] sCan reachCan⟩

/-- Claim C2: per command popped from the hand-off queue, the Dispatch
Pipeline emits exactly one Response — the pop itself emits nothing, and
finishing the command appends exactly one frame: a success Response with the
handler's returned data when the handler returns normally, and an error
Response with the failure's description when it raises; in both cases the
dispatcher returns to its loop head (`idle`) rather than terminating. -/
theorem C2_one_response_per_command :
    ∀ (h : Handler) (s : St) (c : Cmd) (s' : St),
      (Step h s (.dPop c) s' → s'.out = s.out)
      ∧ (Step h s (.dEx c) s' →
          s'.out = s.out ++ [respOf (h c)]
          ∧ (∀ d, h c = .ok d → s'.out = s.out ++ [Out.success d])
          ∧ (∀ m, h c = .error m → s'.out = s.out ++ [Out.error m])
          ∧ s'.dstate = .idle ∧ s'.pending = s.pending - 1) := by
  intro h s c s'
  constructor
  · intro hs
    cases hs with
    | dPop hd hq => rfl
  · intro hs
    cases hs with
    | dEx hd =>
      exact ⟨rfl, fun d hd' => by simp [respOf, hd'],
        fun m hm => by simp [respOf, hm], rfl, rfl⟩

theorem C2_one_response_per_command_witness :
    sExec.out = sPop.out ++ [Out.success "done"] ∧ sExec.dstate = .idle := by
  have hc := (C2_one_response_per_command hOk sPop cmd0 sExec).2 stepExec
  exact ⟨hc.2.1 "done" rfl, hc.2.2.2.1⟩

/-- Claim C9: a truthy message carrying neither a signal nor an action makes
the receiver emit exactly one error Response ("Unsupported message type")
through the error channel, consume the message, and stay in its loop;
nothing is enqueued and the Cancellation Flag is untouched. -/
theorem C9_protocol_error :
    ∀ (h : Handler) (s : St) (s' : St), Step h s .rBad s' →
      s'.out = s.out ++ [Out.error "Unsupported message type"]
      ∧ s'.rstate = .running ∧ s'.stream = s.stream.tail
      ∧ s'.queue = s.queue ∧ s'.event = s.event
      ∧ s'.pending = s.pending ∧ s'.dstate = s.dstate := by
  intro h s s' hs
  cases hs with
  | rBad m rest hr hstr hn ha =>
    exact ⟨rfl, hr, by simp [hstr], rfl, rfl, rfl, rfl⟩

theorem C9_protocol_error_witness :
    (⟨[], .running, false, none, 0, .idle,
        [Out.error "Unsupported message type"]⟩ : St).out
      = (init [msgBad]).out ++ [Out.error "Unsupported message type"] ∧
    (⟨[], .running, false, none, 0, .idle,
        [Out.error "Unsupported message type"]⟩ : St).rstate = .running := by
  have hs : Step hOk (init [msgBad]) .rBad
      ⟨[], .running, false, none, 0, .idle,
        [Out.error "Unsupported message type"]⟩ :=
    Step.rBad (init [msgBad]) ⟨none, none⟩ [] rfl rfl rfl rfl
  have hc := C9_protocol_error hOk (init [msgBad]) _ hs
  exact ⟨hc.1, hc.2.1⟩

/-- State after the receiver reads end-of-stream on an empty inbound stream. -/
def e1 : St := ⟨[], .finishing, true, none, 0, .idle, []⟩

/-- State after the receiver pushes the sentinel and terminates. -/
def e2 : St := ⟨[], .rdone, true, some .sentinel, 1, .idle, []⟩

/-- State after the dispatcher pops the sentinel and stops. -/
def e3 : St := ⟨[], .rdone, true, none, 1, .ddone, []⟩

theorem stepEos : Step hOk (init []) .rEos e1 :=
  Step.rEosEnd (init []) rfl rfl

theorem stepFin : Step hOk e1 .rFin e2 :=
  Step.rFin e1 rfl rfl

theorem stepStop : Step hOk e2 .dStop e3 :=
  Step.dStop e2 rfl rfl

theorem reachE3 : Reach hOk (init []) e3 :=
  Relation.ReflTransGen.tail
    (Relation.ReflTransGen.tail
      (Relation.ReflTransGen.tail Relation.ReflTransGen.refl ⟨_, stepEos⟩)
      ⟨_, stepFin⟩)
    ⟨_, stepStop⟩

theorem stuckE3 : ∀ (l : Lab) (s' : St), ¬ Step hOk e3 l s' := by
  intro l s' hs
  cases hs <;> simp_all [e3]

/-- Claim C5: on end-of-stream the receiver sets the Cancellation Flag and
moves to push the sentinel; pushing the sentinel is its last action; the
dispatcher stops exactly on popping the sentinel; the joint system admits no
infinite run; and any reachable state with no enabled step has both loops
terminated with the queue drained — so neither loop hangs and no popped
command is left unanswered (a terminated dispatcher is `ddone`, never mid
execution). -/
theorem C5_shutdown :
    (∀ (h : Handler) (s s' : St), Step h s .rEos s' →
        s'.event = true ∧ s'.rstate = .finishing)
    ∧ (∀ (h : Handler) (s s' : St), Step h s .rFin s' →
        s'.queue = some .sentinel ∧ s'.rstate = .rdone)
    ∧ (∀ (h : Handler) (s s' : St), Step h s .dStop s' →
        s'.dstate = .ddone ∧ s'.queue = none)
    ∧ (∀ (h : Handler) (f : Nat → St),
        (∀ n, StepAny h (f n) (f (n + 1))) → False)
    ∧ (∀ (h : Handler) (stream : List (Option Msg)) (s : St),
        Reach h (init stream) s → (∀ l s', ¬ Step h s l s') →
        s.rstate = .rdone ∧ s.dstate = .ddone ∧ s.queue = none) := by
  refine ⟨?_, ?_, ?_, ?_, ?_⟩
  · intro h s s' hs
    cases hs with
    | rEosNone rest hr hstr => exact ⟨rfl, rfl⟩
    | rEosEnd hr hstr => exact ⟨rfl, rfl⟩
  · intro h s s' hs
    cases hs with
    | rFin hr hq => exact ⟨rfl, rfl⟩
  · intro h s s' hs
    cases hs with
    | dStop hd hq => exact ⟨rfl, rfl⟩
  · exact no_infinite_run
  · intro h stream s hr hstuck
    rcases pipe_progress h s (pipeInv_reach hr) with hdone | ⟨l, s', hs⟩
    · exact hdone
    · exact absurd hs (hstuck l s')

theorem C5_shutdown_witness :
    (e1.event = true ∧ e1.rstate = .finishing)
    ∧ (e3.rstate = .rdone ∧ e3.dstate = .ddone ∧ e3.queue = none) :=
  ⟨C5_shutdown.1 hOk (init []) e1 stepEos,
   C5_shutdown.2.2.2.2 hOk [] e3 reachE3 stuckE3⟩

/-- Claim C6: processing a signal message sets the Cancellation Flag exactly
when the signal name is `"cancel"` (otherwise the flag is untouched — the
message is only logged), emits no Response, enqueues nothing, leaves both
loops' control state alone, and consumes the message. -/
theorem C6_signal_dispatch :
    ∀ (h : Handler) (s : St) (name : String) (s' : St),
      Step h s (.rSig name) s' →
      s'.event = (if name = "cancel" then true else s.event)
      ∧ s'.queue = s.queue ∧ s'.out = s.out ∧ s'.pending = s.pending
      ∧ s'.dstate = s.dstate ∧ s'.rstate = s.rstate
      ∧ s'.stream = s.stream.tail := by
  intro h s name s' hs
  cases hs with
  | rSig m rest hr hstr hn =>
    refine ⟨rfl, rfl, rfl, rfl, rfl, rfl, ?_⟩
    simp_all

theorem C6_signal_dispatch_witness :
    sCan.event = true ∧ sCan.queue = sAct.queue ∧ sCan.out = sAct.out := by
  have hc := C6_signal_dispatch hOk sAct "cancel" sCan stepCancel
  refine ⟨?_, hc.2.1, hc.2.2.1⟩
  simpa using hc.1

/-- Python `str.lower()` restricted to ASCII case mapping, as applied to
reader names in `ReadersNode.list_children`. -/
def pyLower (s : String) : String := String.mk (s.data.map Char.toLower)

/-- Python substring containment `pat in hay`. -/
def containsSub (hay pat : String) : Bool := decide (pat.data <:+: hay.data)

/-- Reader-name constant imported from `..pcsc` (module not under `src/`,
value as in the project's `pcsc.py`); every claim below is uniform in it. -/
def YK_READER_NAME : String := "yubico yubikey"

/-- A PC/SC reader as exposed on the objects `list_devices("")` returns. -/
structure Reader where
  name : String
deriving DecidableEq

/-- A PC/SC device object `d` with its `d.reader`. -/
structure PcscDevice where
  reader : Reader
deriving DecidableEq

/-- The list comprehension in `ReadersNode.list_children`: keep devices
whose lowered reader name does not contain `YK_READER_NAME`. -/
def readerFilter (w : List PcscDevice) : List PcscDevice :=
  w.filter (fun d => !(containsSub (pyLower d.reader.name) YK_READER_NAME))

/-- The fingerprint `state = {d.reader.name for d in devices}` (a set). -/
def readersFingerprint (w : List PcscDevice) : Finset String :=
  ((readerFilter w).map (fun d => d.reader.name)).toFinset

/-- Descriptor `dict(name=device.reader.name)` for one reader child. -/
structure RdDescr where
  name : String
deriving DecidableEq

/-- Cache fields of `ReadersNode.__init__`: the fingerprint, the visible
child mapping, and the identifier-to-device mapping (dicts in insertion
order, modelled as association lists). -/
structure ReadersNode where
  _state : Finset String
  _readers : List (String × RdDescr)
  _reader_mapping : List (String × PcscDevice)
deriving DecidableEq

/-- The rebuild loop of `ReadersNode.list_children`: one fresh identifier
per device.  `os.urandom(4).hex()` is nondeterministic, so the call's random
draws are supplied as an oracle `ids` indexed by loop position. -/
def buildReaders (ids : Nat → String) :
    List PcscDevice → Nat → List (String × RdDescr) × List (String × PcscDevice)
  | [], _ => ([], [])
  | d :: rest, i =>
    let p := buildReaders ids rest (i + 1)
    ((ids i, ⟨d.reader.name⟩) :: p.1, (ids i, d) :: p.2)

/-- `ReadersNode.list_children`: filter the current reader list, compute the
name-set fingerprint, rebuild the cache only when the fingerprint changed,
and return the (possibly cached) child mapping together with the updated
node. -/
def ReadersNode.list_children (ids : Nat → String) (w : List PcscDevice)
    (n : ReadersNode) : ReadersNode × List (String × RdDescr) :=
  let state := readersFingerprint w
  if n._state ≠ state then
    let p := buildReaders ids (readerFilter w) 0
    (⟨state, p.1, p.2⟩, p.1)
  else (n, n._readers)

/-- A USB device object from `list_all_devices()`. -/
structure UsbDevice where
  pid : Nat
deriving DecidableEq

/-- The `DeviceInfo` object: only its `serial` field is consumed here. -/
structure DeviceInfo where
  serial : Option Nat
deriving DecidableEq

/-- Descriptor `dict(pid=dev.pid, name=name)` for one device child. -/
structure DevDescr where
  pid : Nat
  name : String
deriving DecidableEq

/-- External collaborators of `DevicesNode.list_children`: `dev.pid.get_type()`
and `get_name(info, type)`. -/
structure DevicesEnv where
  pidGetType : Nat → Nat
  getName : DeviceInfo → Nat → String

/-- One observation of the volatile USB world: `scan_devices()[1]` (the
change counter used as fingerprint) and `list_all_devices()`. -/
structure DevicesWorld where
  scanState : Nat
  allDevices : List (UsbDevice × DeviceInfo)

/-- Cache fields of `DevicesNode.__init__`. -/
structure DevicesNode where
  _state : Nat
  _devices : List (String × DevDescr)
  _device_mapping : List (String × (UsbDevice × DeviceInfo))
deriving DecidableEq

/-- The rebuild loop of `DevicesNode.list_children`: the identifier of each
entry is `str(len(self._devices))` at insertion time, i.e. the decimal
running index (`os.urandom(4).hex()` appears only as a comment in the
source). -/
def buildDevices (env : DevicesEnv) :
    List (UsbDevice × DeviceInfo) → Nat →
      List (String × DevDescr) × List (String × (UsbDevice × DeviceInfo))
  | [], _ => ([], [])
  | (dev, info) :: rest, i =>
    let name := env.getName info (env.pidGetType dev.pid)
    let p := buildDevices env rest (i + 1)
    ((toString i, ⟨dev.pid, name⟩) :: p.1, (toString i, (dev, info)) :: p.2)

/-- `DevicesNode.list_children`: compare `scan_devices()[1]` with the cached
fingerprint, rebuild from `list_all_devices()` only on change, return the
(possibly cached) child mapping with the updated node. -/
def DevicesNode.list_children (env : DevicesEnv) (w : DevicesWorld)
    (n : DevicesNode) : DevicesNode × List (String × DevDescr) :=
  let state := w.scanState
  if state ≠ n._state then
    let p := buildDevices env w.allDevices 0
    (⟨state, p.1, p.2⟩, p.1)
  else (n, n._devices)

theorem devices_list_children_state (env : DevicesEnv) (w : DevicesWorld)
    (n : DevicesNode) :
    ((DevicesNode.list_children env w n).1)._state = w.scanState := by
  unfold DevicesNode.list_children
  dsimp only
  split
  · rfl
  · rename_i hcond
    simp at hcond
    exact hcond.symm

theorem devices_list_children_snd (env : DevicesEnv) (w : DevicesWorld)
    (n : DevicesNode) :
    (DevicesNode.list_children env w n).2
      = ((DevicesNode.list_children env w n).1)._devices := by
  unfold DevicesNode.list_children
  dsimp only
  split <;> rfl

theorem readers_list_children_state (ids : Nat → String)
    (w : List PcscDevice) (n : ReadersNode) :
    ((ReadersNode.list_children ids w n).1)._state = readersFingerprint w := by
  unfold ReadersNode.list_children
  dsimp only
  split
  · rfl
  · rename_i hcond
    simp at hcond
    exact hcond

theorem readers_list_children_snd (ids : Nat → String)
    (w : List PcscDevice) (n : ReadersNode) :
    (ReadersNode.list_children ids w n).2
      = ((ReadersNode.list_children ids w n).1)._readers := by
  unfold ReadersNode.list_children
  dsimp only
  split <;> rfl

/-- Claim C3: for both Enumerating Nodes, a second `listChildren()` call
whose external fingerprint (scan counter / reader-name set) matches the
first call's returns exactly the first call's node state and mapping — the
cache is reused, the external enumeration result (`w2.allDevices` / `w2`
itself, and the second call's random identifier oracle) is never consulted. -/
theorem C3_fingerprint_caching :
    (∀ (env : DevicesEnv) (w1 w2 : DevicesWorld) (n : DevicesNode),
      w2.scanState = w1.scanState →
      DevicesNode.list_children env w2 (DevicesNode.list_children env w1 n).1
        = DevicesNode.list_children env w1 n)
    ∧ (∀ (ids1 ids2 : Nat → String) (w1 w2 : List PcscDevice) (n : ReadersNode),
      readersFingerprint w2 = readersFingerprint w1 →
      ReadersNode.list_children ids2 w2 (ReadersNode.list_children ids1 w1 n).1
        = ReadersNode.list_children ids1 w1 n) := by
  constructor
  · intro env w1 w2 n heq
    have hst := devices_list_children_state env w1 n
    have hsnd := devices_list_children_snd env w1 n
    set r := DevicesNode.list_children env w1 n with hrdef
    unfold DevicesNode.list_children
    dsimp only
    rw [if_neg (by rw [hst, heq]; exact fun hc => hc rfl)]
    exact Prod.ext rfl hsnd.symm
  · intro ids1 ids2 w1 w2 n heq
    have hst := readers_list_children_state ids1 w1 n
    have hsnd := readers_list_children_snd ids1 w1 n
    set r := ReadersNode.list_children ids1 w1 n with hrdef
    unfold ReadersNode.list_children
    dsimp only
    rw [if_neg (by rw [hst, heq]; exact fun hc => hc rfl)]
    exact Prod.ext rfl hsnd.symm

/-- Concrete collaborators for `DevicesNode`. -/
def env0 : DevicesEnv := ⟨fun p => p, fun _ _ => "YubiKey"⟩

/-- A concrete world with scan counter 1 and one attached device. -/
def w1c : DevicesWorld := ⟨1, [(⟨10⟩, ⟨none⟩)]⟩

/-- A concrete world after a scan-state change, with one other device. -/
def w2c : DevicesWorld := ⟨2, [(⟨11⟩, ⟨none⟩)]⟩

/-- A freshly constructed `DevicesNode`. -/
def n0d : DevicesNode := ⟨0, [], []⟩

theorem C3_fingerprint_caching_witness :
    DevicesNode.list_children env0 w1c (DevicesNode.list_children env0 w1c n0d).1
      = DevicesNode.list_children env0 w1c n0d :=
  C3_fingerprint_caching.1 env0 w1c w1c n0d rfl

theorem buildDevices_keys (env : DevicesEnv)
    (l : List (UsbDevice × DeviceInfo)) :
    ∀ i, ((buildDevices env l i).1).map Prod.fst
      = (List.range' i l.length).map toString := by
  induction l with
  | nil => intro i; rfl
  | cons d rest ih =>
    intro i
    obtain ⟨dev, info⟩ := d
    simp [buildDevices, List.range'_succ, ih (i + 1)]

theorem buildReaders_keys (ids : Nat → String) (l : List PcscDevice) :
    ∀ i, ((buildReaders ids l i).1).map Prod.fst
      = (List.range' i l.length).map ids := by
  induction l with
  | nil => intro i; rfl
  | cons d rest ih =>
    intro i
    simp [buildReaders, List.range'_succ, ih (i + 1)]

/-- Claim C4 as stated, instantiated at `DevicesNode` (one of the two
Enumerating Nodes the claim quantifies over): after a fingerprint change,
the rebuilt mapping's identifier set is disjoint from the previous
enumeration's identifiers. -/
def devicesIdsDisjointAfterChange : Prop :=
  ∀ (env : DevicesEnv) (w1 w2 : DevicesWorld) (n : DevicesNode),
    w1.scanState ≠ n._state →
    w2.scanState ≠ w1.scanState →
    ∀ x,
      x ∈ (DevicesNode.list_children env w2
            (DevicesNode.list_children env w1 n).1).2.map Prod.fst →
      x ∉ (DevicesNode.list_children env w1 n).2.map Prod.fst

/-- Claim C4, counterexample: `DevicesNode` assigns sequential decimal
indices (`str(len(self._devices))`; the random `os.urandom(4).hex()` is
commented out), so after a scan-state change the identifier "0" appears in
both the old and the new mapping — the identifier sets are not disjoint and
the identifiers are not newly generated random values. -/
theorem C4_counterexample : ¬ devicesIdsDisjointAfterChange := by
  intro hcl
  exact hcl env0 w1c w2c n0d (by decide) (by decide) "0" (by decide) (by decide)

/-- Claim C4 (amended): `ReadersNode` assigns each child of a rebuilt
enumeration a newly generated identifier drawn from the call's random
source (`os.urandom(4).hex()`, modelled as the oracle `ids`); whenever the
drawn identifiers avoid the previous mapping's (which collision-resistant
randomness makes overwhelmingly likely) the new identifier set is disjoint
from the previous one, and whenever they are pairwise distinct the new
mapping has no duplicate identifiers.  `DevicesNode`, by contrast, assigns
the sequential decimal indices "0", "1", …, so its identifiers are reused
across a fingerprint change. -/
theorem C4_identifier_freshness :
    (∀ (ids : Nat → String) (w : List PcscDevice) (n : ReadersNode),
      n._state ≠ readersFingerprint w →
      ((ReadersNode.list_children ids w n).2.map Prod.fst
          = (List.range (readerFilter w).length).map ids)
      ∧ ((∀ i, i < (readerFilter w).length → ids i ∉ n._readers.map Prod.fst) →
          ∀ x, x ∈ (ReadersNode.list_children ids w n).2.map Prod.fst →
            x ∉ n._readers.map Prod.fst)
      ∧ ((∀ i j, i < (readerFilter w).length → j < (readerFilter w).length →
            ids i = ids j → i = j) →
          ((ReadersNode.list_children ids w n).2.map Prod.fst).Nodup))
    ∧ (∀ (env : DevicesEnv) (w : DevicesWorld) (n : DevicesNode),
      w.scanState ≠ n._state →
      (DevicesNode.list_children env w n).2.map Prod.fst
        = (List.range w.allDevices.length).map toString) := by
  constructor
  · intro ids w n hch
    have hkeys : (ReadersNode.list_children ids w n).2.map Prod.fst
        = (List.range (readerFilter w).length).map ids := by
      unfold ReadersNode.list_children
      dsimp only
      rw [if_pos hch]
      rw [buildReaders_keys ids (readerFilter w) 0, List.range_eq_range']
    refine ⟨hkeys, ?_, ?_⟩
    · intro hfresh x hx
      rw [hkeys] at hx
      simp only [List.mem_map, List.mem_range] at hx
      obtain ⟨i, hi, hxi⟩ := hx
      rw [← hxi]
      exact hfresh i hi
    · intro hinj
      rw [hkeys]
      refine List.Nodup.map_on ?_ (List.nodup_range _)
      intro i hi j hj hij
      simp only [List.mem_range] at hi hj
      exact hinj i j hi hj hij
  · intro env w n hch
    unfold DevicesNode.list_children
    dsimp only
    rw [if_pos hch]
    rw [buildDevices_keys env w.allDevices 0, List.range_eq_range']

/-- A concrete identifier oracle for one `ReadersNode` rebuild. -/
def ids100 : Nat → String := fun i => toString (100 + i)

/-- A concrete reader world with one non-YubiKey reader. -/
def wr1 : List PcscDevice := [⟨⟨"Reader A"⟩⟩]

/-- A freshly constructed `ReadersNode`. -/
def n0r : ReadersNode := ⟨∅, [], []⟩

theorem C4_identifier_freshness_witness :
    (ReadersNode.list_children ids100 wr1 n0r).2.map Prod.fst
        = (List.range (readerFilter wr1).length).map ids100
    ∧ (DevicesNode.list_children env0 w1c n0d).2.map Prod.fst
        = (List.range w1c.allDevices.length).map toString :=
  ⟨(C4_identifier_freshness.1 ids100 wr1 n0r (by decide)).1,
   C4_identifier_freshness.2 env0 w1c n0d (by decide)⟩

/-- The three connection classes passed to `supports_connection` /
`open_connection`: `SmartCardConnection`, `OtpConnection`, `FidoConnection`. -/
inductive ConnKind
  | smartCard
  | otp
  | fido
deriving DecidableEq

/-- An open connection object (opaque to this module apart from `close()`):
`handle` identifies it, `close_calls` counts how many times its `close()`
has been invoked by this module. -/
structure Conn where
  handle : Nat
  close_calls : Nat
deriving DecidableEq

/-- The `read_info(pid, conn)` result: only the fields this module reads. -/
structure Info where
  version : Nat × Nat × Nat
  serial : Option Nat
deriving DecidableEq

/-- The snapshot `{"version": info.version, "serial": info.serial}`. -/
structure Snapshot where
  version : Nat × Nat × Nat
  serial : Option Nat
deriving DecidableEq

/-- A YubiKey device object: `pid`, `supports_connection`, `open_connection`. -/
structure Device where
  pid : Nat
  supports_connection : ConnKind → Bool
  open_connection : ConnKind → Conn

/-- External collaborators of `DeviceNode`: `connect_to_device(serial,
[conn_type])[0]` and `read_info(pid, conn)`. -/
structure RpcEnv where
  connect_to_device : Nat → ConnKind → Conn
  read_info : Option Nat → Conn → Info

/-- `ConnectionNode.__init__`: wraps one live connection. -/
structure ConnectionNode where
  _connection : Conn
deriving DecidableEq

/-- `DeviceNode.__init__(device, info=None)`. -/
structure DeviceNode where
  _device : Device
  _info : Option DeviceInfo

/-- `DeviceNode._create_connection`: open directly when the device supports
the kind; otherwise, when `self._info and self._info.serial` is truthy
(info present, serial present and nonzero), reconnect through
`connect_to_device(serial, [conn_type])[0]`; otherwise raise
`ValueError("Unsupported connection type")`. -/
def DeviceNode._create_connection (env : RpcEnv) (n : DeviceNode)
    (conn_type : ConnKind) : Except String ConnectionNode :=
  if n._device.supports_connection conn_type then
    .ok ⟨n._device.open_connection conn_type⟩
  else
    match n._info with
    | some info =>
      match info.serial with
      | some serial =>
        if serial ≠ 0 then .ok ⟨env.connect_to_device serial conn_type⟩
        else .error "Unsupported connection type"
      | none => .error "Unsupported connection type"
    | none => .error "Unsupported connection type"

/-- The `ccid` child accessor. -/
def DeviceNode.ccid (env : RpcEnv) (n : DeviceNode) :
    Except String ConnectionNode :=
  DeviceNode._create_connection env n .smartCard

/-- The `otp` child accessor. -/
def DeviceNode.otp (env : RpcEnv) (n : DeviceNode) :
    Except String ConnectionNode :=
  DeviceNode._create_connection env n .otp

/-- The `fido` child accessor. -/
def DeviceNode.fido (env : RpcEnv) (n : DeviceNode) :
    Except String ConnectionNode :=
  DeviceNode._create_connection env n .fido

/-- The `for conn_type in (...)` loop of `DeviceNode.get_data`. -/
def DeviceNode.get_data_loop (env : RpcEnv) (dev : Device) :
    List ConnKind → Except String Snapshot
  | [] => .error "No supported connections"
  | k :: ks =>
    if dev.supports_connection k then
      let info := env.read_info (some dev.pid) (dev.open_connection k)
      .ok ⟨info.version, info.serial⟩
    else DeviceNode.get_data_loop env dev ks

/-- `DeviceNode.get_data`: try `SmartCardConnection`, `OtpConnection`,
`FidoConnection` in that fixed order; on the first supported kind open it,
`read_info`, and return the version/serial snapshot; raise
`ValueError("No supported connections")` when none is supported. -/
def DeviceNode.get_data (env : RpcEnv) (n : DeviceNode) :
    Except String Snapshot :=
  DeviceNode.get_data_loop env n._device [.smartCard, .otp, .fido]

/-- Claim C7: each connection accessor routes through `_create_connection`
at its kind; a supported kind opens a connection directly and wraps it in a
new `ConnectionNode`; an unsupported kind with a known nonzero serial
reconnects via that serial; an unsupported kind with no info, no serial, or
a falsy (zero) serial fails with "Unsupported connection type". -/
theorem C7_connection_accessors :
    ∀ (env : RpcEnv) (n : DeviceNode) (k : ConnKind),
      (DeviceNode.ccid env n = DeviceNode._create_connection env n .smartCard
        ∧ DeviceNode.otp env n = DeviceNode._create_connection env n .otp
        ∧ DeviceNode.fido env n = DeviceNode._create_connection env n .fido)
      ∧ (n._device.supports_connection k = true →
          DeviceNode._create_connection env n k
            = .ok ⟨n._device.open_connection k⟩)
      ∧ (n._device.supports_connection k = false →
          ∀ info serial, n._info = some info → info.serial = some serial →
          serial ≠ 0 →
          DeviceNode._create_connection env n k
            = .ok ⟨env.connect_to_device serial k⟩)
      ∧ (n._device.supports_connection k = false →
          (n._info = none
            ∨ ∃ info, n._info = some info
                ∧ (info.serial = none ∨ info.serial = some 0)) →
          DeviceNode._create_connection env n k
            = .error "Unsupported connection type") := by
  intro env n k
  refine ⟨⟨rfl, rfl, rfl⟩, ?_, ?_, ?_⟩
  · intro hsup
    unfold DeviceNode._create_connection
    rw [if_pos hsup]
  · intro hsup info serial hinfo hserial hnz
    unfold DeviceNode._create_connection
    rw [if_neg (by simp [hsup]), hinfo]
    simp only [hserial]
    rw [if_pos hnz]
  · intro hsup hfalsy
    unfold DeviceNode._create_connection
    rw [if_neg (by simp [hsup])]
    rcases hfalsy with hnone | ⟨info, hinfo, hser⟩
    · rw [hnone]
    · rw [hinfo]
      rcases hser with hser | hser <;> simp only [hser]
      simp

/-- A concrete device supporting no connection kind. -/
def devNone : Device := ⟨7, fun _ => false, fun _ => ⟨0, 0⟩⟩

/-- A concrete device supporting only `OtpConnection`. -/
def devOtp : Device :=
  ⟨8, fun k => match k with | .otp => true | _ => false, fun _ => ⟨5, 0⟩⟩

/-- Concrete collaborators for `DeviceNode`. -/
def envR : RpcEnv := ⟨fun s _ => ⟨s, 0⟩, fun _ _ => ⟨(5, 4, 3), some 123⟩⟩

theorem C7_connection_accessors_witness :
    DeviceNode._create_connection envR ⟨devNone, none⟩ .smartCard
        = .error "Unsupported connection type"
    ∧ DeviceNode._create_connection envR ⟨devOtp, none⟩ .otp
        = .ok ⟨devOtp.open_connection .otp⟩ :=
  ⟨(C7_connection_accessors envR ⟨devNone, none⟩ .smartCard).2.2.2 rfl
      (Or.inl rfl),
   (C7_connection_accessors envR ⟨devOtp, none⟩ .otp).2.1 rfl⟩

/-- Claim C8: `get_data` tries SmartCard, OTP, FIDO in that fixed order,
reads the identity summary over the first supported kind, and returns the
version/serial snapshot; with no supported kind it fails with
"No supported connections". -/
theorem C8_get_data_order :
    ∀ (env : RpcEnv) (n : DeviceNode),
      (n._device.supports_connection .smartCard = true →
        DeviceNode.get_data env n
          = .ok ⟨(env.read_info (some n._device.pid)
                    (n._device.open_connection .smartCard)).version,
                 (env.read_info (some n._device.pid)
                    (n._device.open_connection .smartCard)).serial⟩)
      ∧ (n._device.supports_connection .smartCard = false →
          n._device.supports_connection .otp = true →
          DeviceNode.get_data env n
            = .ok ⟨(env.read_info (some n._device.pid)
                      (n._device.open_connection .otp)).version,
                   (env.read_info (some n._device.pid)
                      (n._device.open_connection .otp)).serial⟩)
      ∧ (n._device.supports_connection .smartCard = false →
          n._device.supports_connection .otp = false →
          n._device.supports_connection .fido = true →
          DeviceNode.get_data env n
            = .ok ⟨(env.read_info (some n._device.pid)
                      (n._device.open_connection .fido)).version,
                   (env.read_info (some n._device.pid)
                      (n._device.open_connection .fido)).serial⟩)
      ∧ (n._device.supports_connection .smartCard = false →
          n._device.supports_connection .otp = false →
          n._device.supports_connection .fido = false →
          DeviceNode.get_data env n = .error "No supported connections") := by
  intro env n
  refine ⟨?_, ?_, ?_, ?_⟩
  · intro h1
    simp [DeviceNode.get_data, DeviceNode.get_data_loop, h1]
  · intro h1 h2
    simp [DeviceNode.get_data, DeviceNode.get_data_loop, h1, h2]
  · intro h1 h2 h3
    simp [DeviceNode.get_data, DeviceNode.get_data_loop, h1, h2, h3]
  · intro h1 h2 h3
    simp [DeviceNode.get_data, DeviceNode.get_data_loop, h1, h2, h3]

theorem C8_get_data_order_witness :
    DeviceNode.get_data envR ⟨devOtp, none⟩ = .ok ⟨(5, 4, 3), some 123⟩
    ∧ DeviceNode.get_data envR ⟨devNone, none⟩
        = .error "No supported connections" :=
  ⟨(C8_get_data_order envR ⟨devOtp, none⟩).2.1 rfl rfl,
   (C8_get_data_order envR ⟨devNone, none⟩).2.2.2 rfl rfl rfl⟩

/-- `ConnectionNode.close`: `super().close()` — the base class `RpcNode`
lives in `ykman/rpc/base.py`, which is not under `src/`; modelled from the
spec: "default implementation is a no-op", so it contributes nothing —
followed unconditionally by `self._connection.close()`, modelled as
incrementing the wrapped connection's close-call counter. -/
def ConnectionNode.close (n : ConnectionNode) : ConnectionNode :=
  ⟨⟨n._connection.handle, n._connection.close_calls + 1⟩⟩

/-- Calling `close()` on the same `ConnectionNode` `k` times in a row. -/
def ConnectionNode.closeTimes : Nat → ConnectionNode → ConnectionNode
  | 0, n => n
  | k + 1, n => ConnectionNode.closeTimes k (ConnectionNode.close n)

/-- Claim C10 as stated for the Resource Node: starting from a node whose
wrapped connection has never been closed, any number of `close()` calls
releases (invokes `close()` on) the underlying connection at most once. -/
def closeReleasesAtMostOnce : Prop :=
  ∀ (k : Nat) (n : ConnectionNode), n._connection.close_calls = 0 →
    (ConnectionNode.closeTimes k n)._connection.close_calls ≤ 1

/-- Claim C10, counterexample: `ConnectionNode.close` has no once-guard — it
invokes `self._connection.close()` on every call, so two `close()` calls
release the underlying connection twice. -/
theorem C10_counterexample : ¬ closeReleasesAtMostOnce := by
  intro hcl
  have h2 := hcl 2 ⟨⟨0, 0⟩⟩ rfl
  simp [ConnectionNode.closeTimes, ConnectionNode.close] at h2

/-- Claim C10 (amended): the default (spec-modelled) base `close()` is a
no-op, so repeated closing is well-defined on every node; but
`ConnectionNode.close` invokes the wrapped connection's `close()` exactly
once per call — `k` calls invoke it `k` times, not at most once; idempotence
of release is delegated to the connection object, and the pipeline must not
close the same node twice to keep single release. -/
theorem C10_close_per_call :
    ∀ (k : Nat) (n : ConnectionNode),
      (ConnectionNode.close n)._connection.close_calls
          = n._connection.close_calls + 1
      ∧ (ConnectionNode.closeTimes k n)._connection.close_calls
          = n._connection.close_calls + k := by
  intro k
  induction k with
  | zero => exact fun n => ⟨rfl, rfl⟩
  | succ j ih =>
    intro n
    refine ⟨rfl, ?_⟩
    have hstep := (ih (ConnectionNode.close n)).2
    show (ConnectionNode.closeTimes j
        (ConnectionNode.close n))._connection.close_calls
      = n._connection.close_calls + (j + 1)
    rw [hstep]
    simp only [ConnectionNode.close]
    omega

theorem C10_close_per_call_witness :
    (ConnectionNode.closeTimes 2 ⟨⟨0, 0⟩⟩)._connection.close_calls = 2 :=
  (C10_close_per_call 2 ⟨⟨0, 0⟩⟩).2
